import Mathlib

set_option maxRecDepth 100000

/-!
Verification development for the debug session engine of this repository.

The embedding covers, over lists of characters:
  - the pdb output parser `parse_pdb_output` (backend/utils/debug.py),
  - the bridge read primitive `_read_up_to` and the reserved-marker scan of
    `_read_user_and_pdb_output`,
  - the injected variable tree builder (backend/utils/debug_tree_source.py),
  - the step-over capture loop `_step_over_and_capture_calls` driven by a
    modelled debuggee output stream,
  - the websocket gateway dispatch (backend/server/ws.py).

Every definition is translated from the source; regular expressions are
hand-compiled to equivalent deterministic character scanners, documented at
each definition.
-/

/-- Whitespace test matching the character class backslash-s of the Python
regular expressions in the parser (ASCII range, which covers all pdb output). -/
def pyIsSpace (c : Char) : Bool :=
  c == ' ' || c == '\t' || c == '\n' || c == '\r' || c == '\x0b' || c == '\x0c'

/-- Mirror of the Python split on a newline character: the result always has
one more element than the number of newlines, and a trailing newline yields a
trailing empty line. -/
def splitLines : List Char → List (List Char)
  | [] => [[]]
  | c :: rest =>
    if c == '\n' then [] :: splitLines rest
    else
      match splitLines rest with
      | [] => [[c]]
      | l :: ls => (c :: l) :: ls

/-- Mirror of joining lines with a newline separator. -/
def joinLines : List (List Char) → List Char
  | [] => []
  | [l] => l
  | l :: ls => l ++ '\n' :: joinLines ls

/-- First index at which `pat` occurs as a contiguous substring (Python
`str.index` / the `in` test combined: `none` means not found). -/
def findSub (pat : List Char) : List Char → Option Nat
  | [] => if pat.isPrefixOf ([] : List Char) then some 0 else none
  | c :: rest =>
    if pat.isPrefixOf (c :: rest) then some 0
    else (findSub pat rest).map (fun n => n + 1)

/-- Fuel-driven helper for `replaceAll`; the fuel is the length of the text,
which suffices because every step consumes at least one character. -/
def replaceAllAux (pat : List Char) : Nat → List Char → List Char
  | 0, s => s
  | f + 1, s =>
    match s with
    | [] => []
    | c :: rest =>
      if !pat.isEmpty && pat.isPrefixOf s then replaceAllAux pat f (s.drop pat.length)
      else c :: replaceAllAux pat f rest

/-- Mirror of Python `s.replace(pat, "")`: remove every non-overlapping
occurrence of `pat`, scanning left to right. -/
def replaceAll (s pat : List Char) : List Char :=
  replaceAllAux pat s.length s

/-- Interpret a digit run as a natural number (the `int(...)` conversion
applied to the digits captured by the frame patterns). -/
def natOfDigits (ds : List Char) : Nat :=
  ds.foldl (fun acc c => acc * 10 + (c.toNat - '0'.toNat)) 0

/-- Mirror of Python `str.strip()` restricted to whitespace. -/
def stripChars (s : List Char) : List Char :=
  ((s.dropWhile pyIsSpace).reverse.dropWhile pyIsSpace).reverse

/-- Mirror of Python `str.rstrip()`. -/
def rstripChars (s : List Char) : List Char :=
  (s.reverse.dropWhile pyIsSpace).reverse

def PDB_PROMPT : List Char := "(Pdb) ".toList

def CALL_PATTERN : List Char := "--Call--".toList

def RETURN_PATTERN : List Char := "--Return--".toList

def PROGRAM_FINISHED_PATTERN : List Char := "The program finished and will be restarted".toList

def ARROW : List Char := "->".toList

/-- Position of the first opening parenthesis of a text together with the text
after it. -/
def afterFirstParen : List Char → Option (Nat × List Char)
  | [] => none
  | c :: rest =>
    if c == '(' then some (0, rest)
    else (afterFirstParen rest).map (fun p => (p.1 + 1, p.2))

/-- Check for a nonempty digit run followed immediately by a closing
parenthesis, the tail of the frame-header patterns. -/
def digitsThenRparen (s : List Char) : Bool :=
  let ds := s.takeWhile Char.isDigit
  !ds.isEmpty && ((s.drop ds.length).head? == some ')')

/-- Compiled form of the boundary regular expression caret-backslash-s-star-gt
(`re.match` of a line that is optional whitespace then a greater-than sign). -/
def matchBoundaryGt (line : List Char) : Bool :=
  (line.dropWhile pyIsSpace).head? == some '>'

/-- Compiled form of the boundary regular expression: one-or-more whitespace,
one-or-more non-parenthesis characters, an opening parenthesis, digits, and a
closing parenthesis.  Equivalent deterministic form: the first character is
whitespace, the first opening parenthesis sits at overall index at least two,
and it is followed by a nonempty digit run and a closing parenthesis. -/
def matchIndentHeader (line : List Char) : Bool :=
  match line with
  | [] => false
  | c :: rest =>
    pyIsSpace c &&
      (match afterFirstParen rest with
       | some (k, after) => decide (1 ≤ k) && digitsThenRparen after
       | none => false)

/-- Compiled form of the numbered-source-listing exclusion: optional
whitespace, a nonempty digit run, then at least one whitespace character. -/
def matchNumbered (line : List Char) : Bool :=
  let t := line.dropWhile pyIsSpace
  let ds := t.takeWhile Char.isDigit
  !ds.isEmpty &&
    (match (t.drop ds.length).head? with
     | some c => pyIsSpace c
     | none => false)

/-- A line at which `parse_pdb_output` decides the frame section starts. -/
def isFrameBoundaryLine (line : List Char) : Bool :=
  (matchBoundaryGt line || matchIndentHeader line) && !matchNumbered line

/-- One stack entry as produced by the parser; `retval` is present exactly when
the header function text contained an arrow, `code` exactly for the two-line
frame shape. -/
structure Frame where
  file : List Char
  line : Nat
  function : List Char
  retval : Option (List Char)
  code : Option (List Char)
  is_current : Bool
deriving DecidableEq, Repr

/-- Mirror of the private helper splitting a header function text at the first
arrow into the function name and the return value. -/
def getFunctionNameAndRetval (s : List Char) : List Char × Option (List Char) :=
  match findSub ARROW s with
  | some idx => (s.take idx, some (s.drop (idx + 2)))
  | none => (s, none)

/-- The alternation prefix of both frame patterns: either two whitespace
characters or a greater-than sign followed by whitespace. -/
def consumeFrameLead : List Char → Option (List Char)
  | a :: b :: r =>
    if pyIsSpace a && pyIsSpace b then some r
    else if a == '>' && pyIsSpace b then some r
    else none
  | _ => none

/-- Groups captured by FRAME_WITH_CODE_PATTERN on a line pair: prefix, then a
nonempty run free of whitespace and opening parentheses (the file), an opening
parenthesis, digits, a closing parenthesis, the nonempty rest of the first line
(the function text), and a second line that starts with an arrow followed by
nonempty source text. -/
def frameWithCodeGroups (l1 : List Char) (l2 : Option (List Char)) :
    Option (List Char × List Char × List Char × List Char) :=
  match consumeFrameLead l1, l2 with
  | some r, some second =>
    let g1 := r.takeWhile (fun c => !pyIsSpace c && c != '(')
    if g1.isEmpty then none
    else
      match r.drop g1.length with
      | '(' :: afterParen =>
        let ds := afterParen.takeWhile Char.isDigit
        if ds.isEmpty then none
        else
          match afterParen.drop ds.length with
          | ')' :: g3 =>
            if g3.isEmpty then none
            else if ARROW.isPrefixOf second then
              let g4 := second.drop 2
              if g4.isEmpty then none
              else some (g1, ds, g3, g4)
            else none
          | _ => none
      | _ => none
  | _, _ => none

/-- Compiled form of FRAME_WITH_CODE_PATTERN: the captured groups assembled
into a frame dictionary, current exactly when the header line starts with a
greater-than sign. -/
def tryFrameWithCode (l1 : List Char) (l2 : Option (List Char)) : Option Frame :=
  (frameWithCodeGroups l1 l2).map (fun g =>
    let fr := getFunctionNameAndRetval g.2.2.1
    { file := g.1, line := natOfDigits g.2.1, function := fr.1, retval := fr.2,
      code := some g.2.2.2, is_current := l1.head? == some '>' })

/-- Groups captured by FRAME_STRING_PATTERN on a single line: prefix, an
angle-bracketed nonempty label, an opening parenthesis, digits, a closing
parenthesis, and a nonempty rest of the line (the function text). -/
def frameStringGroups (l1 : List Char) : Option (List Char × List Char × List Char) :=
  match consumeFrameLead l1 with
  | some r =>
    match r with
    | '<' :: afterLt =>
      let g1 := afterLt.takeWhile (fun c => c != '>')
      if g1.isEmpty then none
      else
        match afterLt.drop g1.length with
        | '>' :: '(' :: afterParen =>
          let ds := afterParen.takeWhile Char.isDigit
          if ds.isEmpty then none
          else
            match afterParen.drop ds.length with
            | ')' :: g3 =>
              if g3.isEmpty then none
              else some (g1, ds, g3)
            | _ => none
        | _ => none
    | _ => none
  | none => none

/-- Compiled form of FRAME_STRING_PATTERN: the captured groups assembled into
a frame dictionary without source text, current exactly when the line starts
with a greater-than sign. -/
def tryFrameString (l1 : List Char) : Option Frame :=
  (frameStringGroups l1).map (fun g =>
    let fr := getFunctionNameAndRetval g.2.2
    { file := g.1, line := natOfDigits g.2.1, function := fr.1, retval := fr.2,
      code := none, is_current := l1.head? == some '>' })

/-- The frame-matching loop of `parse_pdb_output`: try the two-line shape
(consuming two lines), then the one-line shape (consuming one), else skip the
line.  The fuel is the number of lines, which suffices because every step
consumes at least one line. -/
def parseFramesAux : Nat → List (List Char) → List Frame
  | 0, _ => []
  | _ + 1, [] => []
  | f + 1, l :: rest =>
    match tryFrameWithCode l rest.head? with
    | some fr => fr :: parseFramesAux f rest.tail
    | none =>
      match tryFrameString l with
      | some fr => fr :: parseFramesAux f rest
      | none => parseFramesAux f rest

/-- Mirror of `parse_pdb_output`: find the first frame-boundary line; the text
before it is the program output, the lines from it onward are matched against
the two frame shapes. -/
def parse_pdb_output (output_text : List Char) : List Char × List Frame :=
  let lines := splitLines output_text
  match lines.findIdx? isFrameBoundaryLine with
  | none => (output_text, [])
  | some i =>
    (joinLines (lines.take i), parseFramesAux (lines.drop i).length (lines.drop i))

/-- Fuel-driven helper for the bridge read primitive; the fuel is the length of
the stream, which suffices because every step consumes one character.  Mirrors
the loop of `_read_up_to`: read one character, stop at end of stream, append,
stop when the buffer ends with the pattern. -/
def readUpToAux (pattern : List Char) : Nat → List Char → List Char → List Char
  | 0, _, acc => acc
  | f + 1, stream, acc =>
    match stream with
    | [] => acc
    | c :: rest =>
      let acc2 := acc ++ [c]
      if pattern.isSuffixOf acc2 then acc2 else readUpToAux pattern f rest acc2

/-- Mirror of `_read_up_to`: accumulate characters from the stream until the
buffer ends with the pattern, or until the stream is exhausted. -/
def readUpTo (pattern stream : List Char) : List Char :=
  readUpToAux pattern stream.length stream []

/-- The reserved-marker scan of `_read_user_and_pdb_output`: the three markers
are tried in the fixed order call, return, program-finished; the first one that
occurs anywhere in the raw output is reported and the program output is
truncated at its first occurrence; otherwise the parsed program output and an
empty marker are kept. -/
def applyMarkers (rawOutput programOutput : List Char) : List Char × List Char :=
  match findSub CALL_PATTERN rawOutput with
  | some i => (rawOutput.take i, CALL_PATTERN)
  | none =>
    match findSub RETURN_PATTERN rawOutput with
    | some i => (rawOutput.take i, RETURN_PATTERN)
    | none =>
      match findSub PROGRAM_FINISHED_PATTERN rawOutput with
      | some i => (rawOutput.take i, PROGRAM_FINISHED_PATTERN)
      | none => (programOutput, [])

/-- Errors a session primitive can raise.  `fuelExhausted` is a model artifact
for the step-over loop, never reached with adequate fuel. -/
inductive PyErr where
  | programFinished
  | assertionError
  | nameError
  | noCurrentFrame
  | fuelExhausted
deriving DecidableEq, Repr

/-- Model state of a debug session: whether the child process is alive (models
both `self.process` being set and `poll()` returning nothing), the remaining
standard-output stream of the debuggee, and the log of commands written. -/
structure SessionSt where
  alive : Bool
  stream : List Char
  cmds : List (List Char)
deriving DecidableEq, Repr

def writeCommand (cmd : List Char) (st : SessionSt) : SessionSt :=
  { st with cmds := st.cmds ++ [cmd] }

/-- Mirror of `_read_user_and_pdb_output`: read up to the prompt, strip prompt
occurrences, parse, then apply the reserved-marker scan. -/
def readUserAndPdbOutput (st : SessionSt) : (List Char × List Char × List Frame) × SessionSt :=
  let raw := readUpTo PDB_PROMPT st.stream
  let rawOutput := replaceAll raw PDB_PROMPT
  let pr := parse_pdb_output rawOutput
  let mk := applyMarkers rawOutput pr.1
  ((mk.1, mk.2, pr.2), { st with stream := st.stream.drop raw.length })

/-- Mirror of `ensure_process_is_running`. -/
def ensureProcessIsRunning (st : SessionSt) : Except PyErr Unit :=
  if st.alive then Except.ok () else Except.error PyErr.programFinished

def CMD_NEXT : List Char := "n\n".toList

def CMD_STEP : List Char := "s\n".toList

def CMD_RETURN : List Char := "r\n".toList

def CMD_WHERE : List Char := "w\n".toList

def CMD_UP : List Char := "up\n".toList

def CMD_LIST : List Char := "l .\n".toList

def CMD_P_HEAD : List Char := "p ".toList

/-- Mirror of `pdb_next`. -/
def pdb_next (st : SessionSt) : Except PyErr ((List Char × List Char) × SessionSt) := do
  let _ ← ensureProcessIsRunning st
  let r := readUserAndPdbOutput (writeCommand CMD_NEXT st)
  Except.ok ((r.1.1, r.1.2.1), r.2)

/-- Mirror of `pdb_step`. -/
def pdb_step (st : SessionSt) : Except PyErr ((List Char × List Char) × SessionSt) := do
  let _ ← ensureProcessIsRunning st
  let r := readUserAndPdbOutput (writeCommand CMD_STEP st)
  Except.ok ((r.1.1, r.1.2.1), r.2)

/-- Mirror of `pdb_return`: issue the return command, locate the first current
frame (an unbound local, hence a name error, when none is current), assert the
return value annotation is present, and return it. -/
def pdb_return (st : SessionSt) : Except PyErr ((List Char × List Char × List Char) × SessionSt) := do
  let _ ← ensureProcessIsRunning st
  let r := readUserAndPdbOutput (writeCommand CMD_RETURN st)
  match (r.1.2.2).find? (fun fr => fr.is_current) with
  | none => Except.error PyErr.nameError
  | some fr =>
    match fr.retval with
    | none => Except.error PyErr.assertionError
    | some rv => Except.ok ((r.1.1, r.1.2.1, rv), r.2)

/-- Mirror of `pdb_where`, including its assertion that the program output of a
stack-trace read is empty. -/
def pdb_where (st : SessionSt) : Except PyErr (List Frame × SessionSt) := do
  let _ ← ensureProcessIsRunning st
  let r := readUserAndPdbOutput (writeCommand CMD_WHERE st)
  if r.1.1.isEmpty then Except.ok (r.1.2.2, r.2) else Except.error PyErr.assertionError

/-- Mirror of `pdb_up`. -/
def pdb_up (st : SessionSt) : Except PyErr (List Char × SessionSt) := do
  let _ ← ensureProcessIsRunning st
  let r := readUserAndPdbOutput (writeCommand CMD_UP st)
  Except.ok (r.1.1, r.2)

/-- Mirror of `pdb_list`. -/
def pdb_list (st : SessionSt) : Except PyErr (List Char × SessionSt) := do
  let _ ← ensureProcessIsRunning st
  let r := readUserAndPdbOutput (writeCommand CMD_LIST st)
  Except.ok (r.1.1, r.2)

/-- Mirror of `pdb_p`: evaluate an expression and return its printed output. -/
def pdb_p (expr : List Char) (st : SessionSt) : Except PyErr (List Char × SessionSt) := do
  let _ ← ensureProcessIsRunning st
  let r := readUserAndPdbOutput (writeCommand (CMD_P_HEAD ++ expr ++ ['\n']) st)
  Except.ok (r.1.1, r.2)

def EXC_EXPR : List Char := "__exception__".toList

def NAME_ERROR_MARK : List Char := "*** NameError".toList

def GEN_FLAG_EXPR : List Char := "$_frame.f_code.co_flags & 0x20".toList

def ZERO_STR : List Char := "0".toList

/-- Mirror of `is_exception_raised`: evaluate the reserved exception slot and
report an exception as pending unless the printed output starts with the name
error prefix. -/
def is_exception_raised (st : SessionSt) : Except PyErr (Bool × SessionSt) := do
  let r ← pdb_p EXC_EXPR st
  Except.ok (!(NAME_ERROR_MARK.isPrefixOf r.1), r.2)

/-- Mirror of `_capture_exception_info`. -/
def captureExceptionInfo (st : SessionSt) : Except PyErr ((List Char × List Frame) × SessionSt) := do
  let r ← pdb_p EXC_EXPR st
  let w ← pdb_where r.2
  Except.ok ((rstripChars r.1, w.1), w.2)

/-- Mirror of `_is_in_generator_function`: evaluate the generator flag of the
current code object; any exception is swallowed and treated as not a
generator. -/
def isInGeneratorFunction (st : SessionSt) : Bool × SessionSt :=
  match pdb_p GEN_FLAG_EXPR st with
  | Except.ok r => (!(stripChars r.1 == ZERO_STR), r.2)
  | Except.error _ => (false, st)

/-- A node of the serialized variable tree (name, value text, kind tag,
children); primitives carry no children. -/
inductive Node where
  | mk : List Char → List Char → List Char → List Node → Node

def Node.name : Node → List Char
  | Node.mk n _ _ _ => n

def Node.value : Node → List Char
  | Node.mk _ v _ _ => v

def Node.kind : Node → List Char
  | Node.mk _ _ k _ => k

def Node.children : Node → List Node
  | Node.mk _ _ _ cs => cs

/-- A live Python object in the debuggee, identified by its heap identity.
Each object carries its repr text (`repr` cannot be computed from the graph in
the presence of cycles, so the model stores the text the debuggee would
produce); containers reference their elements by identity.  Dictionary keys
and instance attribute names are stored already stringified.  `oinst` models
objects exposing a `__dict__`, `oslots` objects exposing `__slots__`. -/
inductive Obj where
  | prim (rep : List Char)
  | olist (rep : List Char) (elems : List Nat)
  | otuple (rep : List Char) (elems : List Nat)
  | odict (rep : List Char) (entries : List (List Char × Nat))
  | oset (rep : List Char) (elems : List Nat)
  | oinst (rep : List Char) (attrs : List (List Char × Nat))
  | oslots (rep : List Char) (slots : List (List Char × Nat))
  | oother (rep : List Char)

def Obj.rep : Obj → List Char
  | Obj.prim r => r
  | Obj.olist r _ => r
  | Obj.otuple r _ => r
  | Obj.odict r _ => r
  | Obj.oset r _ => r
  | Obj.oinst r _ => r
  | Obj.oslots r _ => r
  | Obj.oother r => r

/-- The debuggee heap: every identity maps to an object. -/
def Heap : Type := Nat → Obj

def ELLIPSIS : List Char := "...".toList

/-- Mirror of `_safe_repr`: truncate the repr to `maxLen` characters, appending
an ellipsis when truncated. -/
def safeRepr (rep : List Char) (maxLen : Nat) : List Char :=
  rep.take maxLen ++ (if maxLen < rep.length then ELLIPSIS else [])

def CYCLE_STR : List Char := "<cycle>".toList

def KIND_PRIMITIVE : List Char := "primitive".toList

def KIND_LIST : List Char := "list".toList

def KIND_TUPLE : List Char := "tuple".toList

def KIND_DICT : List Char := "dict".toList

def KIND_SET : List Char := "set".toList

def KIND_INSTANCE : List Char := "instance".toList

def KIND_OTHER : List Char := "other".toList

def MORE_SUFFIX : List Char := " more".toList

/-- The synthetic leaf appended to a truncated container, reporting how many
children were dropped. -/
def moreNode (count : Nat) : Node :=
  Node.mk ELLIPSIS ((Nat.repr count).toList ++ MORE_SUFFIX) KIND_PRIMITIVE []

/-- Names the positional children of a sequence: index `i` becomes `str(i)`. -/
def enumNames (elems : List Nat) : List (List Char × Nat) :=
  elems.enum.map (fun p => ((Nat.repr p.1).toList, p.2))

/-- Build the child nodes of a container in order, threading the mutable seen
set through the recursive calls exactly as the Python code does. -/
def buildChildren (g : List Char → Nat → List Nat → Node × List Nat) :
    List (List Char × Nat) → List Nat → List Node × List Nat
  | [], seen => ([], seen)
  | kv :: rest, seen =>
    let r := g kv.1 kv.2 seen
    let rr := buildChildren g rest r.2
    (r.1 :: rr.1, rr.2)

def DUNDER : List Char := "__".toList

/-- Attribute name filtered out of instance children: starts and ends with a
double underscore. -/
def isDunderName (s : List Char) : Bool :=
  DUNDER.isPrefixOf s && DUNDER.isSuffixOf s

/-- Build instance children: like `buildChildren` but dunder-named attributes
are skipped (the `continue` in the instance branch of `_make_node`). -/
def buildAttrChildren (g : List Char → Nat → List Nat → Node × List Nat) :
    List (List Char × Nat) → List Nat → List Node × List Nat
  | [], seen => ([], seen)
  | kv :: rest, seen =>
    if isDunderName kv.1 then buildAttrChildren g rest seen
    else
      let r := g kv.1 kv.2 seen
      let rr := buildAttrChildren g rest r.2
      (r.1 :: rr.1, rr.2)

/-- Mirror of `_make_node` over the heap model, with explicit fuel for the
recursion (the Python recursion is bounded because every recursive call
increases `depth` and depth past `maxDepth` returns a leaf; any fuel at least
`maxDepth + 2 - depth` computes the same tree, see the stabilization theorem).
Guard order follows the source: seen-identity check, depth check, primitive
check, then the container branches; a container adds its identity to the seen
set, builds its children, appends the truncation leaf when oversized, and
removes its identity again.  In the model every value has an identity, since
`id` never fails on live objects. -/
def makeNodeAux (heap : Heap) (maxDepth maxChildren : Nat) :
    Nat → List Char → Nat → Nat → List Nat → Node × List Nat
  | 0, name, _, _, seen => (Node.mk name [] [] [], seen)
  | f + 1, name, oid, depth, seen =>
    if seen.contains oid then (Node.mk name CYCLE_STR KIND_PRIMITIVE [], seen)
    else if maxDepth < depth then
      (Node.mk name (safeRepr (heap oid).rep 256) KIND_PRIMITIVE [], seen)
    else
      match heap oid with
      | Obj.prim rep => (Node.mk name (safeRepr rep 256) KIND_PRIMITIVE [], seen)
      | Obj.olist rep elems =>
        let bc := buildChildren
          (fun nm cid s => makeNodeAux heap maxDepth maxChildren f nm cid (depth + 1) s)
          (enumNames (elems.take maxChildren)) (oid :: seen)
        let children := bc.1 ++
          (if maxChildren < elems.length then [moreNode (elems.length - maxChildren)] else [])
        (Node.mk name (safeRepr rep 80) KIND_LIST children, bc.2.erase oid)
      | Obj.otuple rep elems =>
        let bc := buildChildren
          (fun nm cid s => makeNodeAux heap maxDepth maxChildren f nm cid (depth + 1) s)
          (enumNames (elems.take maxChildren)) (oid :: seen)
        let children := bc.1 ++
          (if maxChildren < elems.length then [moreNode (elems.length - maxChildren)] else [])
        (Node.mk name (safeRepr rep 80) KIND_TUPLE children, bc.2.erase oid)
      | Obj.odict rep entries =>
        let bc := buildChildren
          (fun nm cid s => makeNodeAux heap maxDepth maxChildren f nm cid (depth + 1) s)
          (entries.take maxChildren) (oid :: seen)
        let children := bc.1 ++
          (if maxChildren < entries.length then [moreNode (entries.length - maxChildren)] else [])
        (Node.mk name (safeRepr rep 80) KIND_DICT children, bc.2.erase oid)
      | Obj.oset rep elems =>
        let bc := buildChildren
          (fun nm cid s => makeNodeAux heap maxDepth maxChildren f nm cid (depth + 1) s)
          (enumNames (elems.take maxChildren)) (oid :: seen)
        let children := bc.1 ++
          (if maxChildren < elems.length then [moreNode (elems.length - maxChildren)] else [])
        (Node.mk name (safeRepr rep 80) KIND_SET children, bc.2.erase oid)
      | Obj.oinst rep attrs =>
        let bc := buildAttrChildren
          (fun nm cid s => makeNodeAux heap maxDepth maxChildren f nm cid (depth + 1) s)
          (attrs.take maxChildren) (oid :: seen)
        let children := bc.1 ++
          (if maxChildren < attrs.length then [moreNode (attrs.length - maxChildren)] else [])
        (Node.mk name (safeRepr rep 80) KIND_INSTANCE children, bc.2.erase oid)
      | Obj.oslots rep slots =>
        let bc := buildChildren
          (fun nm cid s => makeNodeAux heap maxDepth maxChildren f nm cid (depth + 1) s)
          (slots.take maxChildren) (oid :: seen)
        let children := bc.1 ++
          (if maxChildren < slots.length then [moreNode (slots.length - maxChildren)] else [])
        (Node.mk name (safeRepr rep 80) KIND_INSTANCE children, bc.2.erase oid)
      | Obj.oother rep => (Node.mk name (safeRepr rep 256) KIND_OTHER [], seen)

/-- Top-level variable map entries: name, identity, and serialized tree. -/
def VarsMap : Type := List (List Char × Nat × Node)

/-- Fold of `build_var_tree` over the top-level variables, threading the
single seen set exactly as the source does and skipping names that start with
a double underscore. -/
def buildVarTreeAux (heap : Heap) (maxDepth maxChildren : Nat) :
    List (List Char × Nat) → List Nat → VarsMap × List Nat
  | [], seen => ([], seen)
  | kv :: rest, seen =>
    if DUNDER.isPrefixOf kv.1 then buildVarTreeAux heap maxDepth maxChildren rest seen
    else
      let r := makeNodeAux heap maxDepth maxChildren (maxDepth + 2) kv.1 kv.2 0 seen
      let rr := buildVarTreeAux heap maxDepth maxChildren rest r.2
      ((kv.1, kv.2, r.1) :: rr.1, rr.2)

/-- Mirror of `build_var_tree`: one shared seen set, initially empty; the fuel
`maxDepth + 2` exceeds the depth bound of the recursion. -/
def build_var_tree (heap : Heap) (locals_dict : List (List Char × Nat))
    (maxDepth maxChildren : Nat) : VarsMap :=
  (buildVarTreeAux heap maxDepth maxChildren locals_dict []).1

def LOCALS_EXPR_PRE : List Char := "__import__(\x27json\x27).dumps(build_var_tree(locals(), ".toList

def LOCALS_EXPR_MID : List Char := ", ".toList

def LOCALS_EXPR_POST : List Char := "))".toList

/-- The expression text `get_local_vars` sends through `pdb_p`. -/
def localsExpr (maxDepth maxChildren : Nat) : List Char :=
  LOCALS_EXPR_PRE ++ (Nat.repr maxDepth).toList ++ LOCALS_EXPR_MID ++
    (Nat.repr maxChildren).toList ++ LOCALS_EXPR_POST

/-- Mirror of `get_local_vars` (defaults in the source: depth 4, width 64,
always passed explicitly here).  The debuggee evaluates `json.dumps` of
`build_var_tree` and `pdb_p` prints its repr; the `eval` plus `json.loads`
round-trip that recovers the mapping is modelled by the `decode` parameter,
whose failure (`none`) yields the empty-mapping fallback of both `except`
arms. -/
def get_local_vars (decode : List Char → Option VarsMap) (maxDepth maxChildren : Nat)
    (st : SessionSt) : Except PyErr (VarsMap × SessionSt) := do
  let r ← pdb_p (localsExpr maxDepth maxChildren) st
  match decode (stripChars r.1) with
  | some m => Except.ok (m, r.2)
  | none => Except.ok ([], r.2)

/-- A recorded function invocation or exception, as accumulated by the
step-over loop. -/
inductive CapturedCall where
  | call (function : List Char) (parameters : List (List Char × List Char))
      (return_value : List Char)
  | exception (exception_repr : List Char) (traceback : List Frame)
deriving DecidableEq, Repr

/-- Mirror of the loop body of `_step_over_and_capture_calls`.  Each iteration:
take the stack trace and truncate it at the first current frame (an unbound
index, hence a name error, when the trace is empty); single-step; if an
exception is pending, record it and stop; otherwise compare the new stack depth
with the truncated one — deeper means a call was entered, whose parameters are
the entry locals and whose return value comes from the finish command (the
generator special case steps up and over instead, recording nothing); equal
depth means the line is done.  The fuel bounds only the model recursion. -/
def stepOverAux (decode : List Char → Option VarsMap) :
    Nat → SessionSt → List CapturedCall → List (List Char) →
    Except PyErr ((List Char × List Char × List CapturedCall) × SessionSt)
  | 0, _, _, _ => Except.error PyErr.fuelExhausted
  | f + 1, st, captured, outputs => do
    let w ← pdb_where st
    let frames := w.1
    let idx ←
      match frames.findIdx? (fun fr => fr.is_current) with
      | some i => Except.ok i
      | none =>
        if frames.isEmpty then Except.error PyErr.nameError
        else Except.ok (frames.length - 1)
    let initialLen := idx + 1
    let s ← pdb_step w.2
    let po := s.1.1
    let e ← is_exception_raised s.2
    if e.1 then do
      let info ← captureExceptionInfo e.2
      Except.ok ((joinLines (outputs ++ [po]), s.1.2,
        captured ++ [CapturedCall.exception info.1.1 info.1.2]), info.2)
    else
      let outputs2 := outputs ++ [po]
      do
      let w2 ← pdb_where e.2
      if initialLen < w2.1.length then
        match w2.1.getLast? with
        | none => Except.error PyErr.nameError
        | some lastFr => do
          let v ← get_local_vars decode 4 64 w2.2
          let params := v.1.map (fun p => (p.1, p.2.2.value))
          let g := isInGeneratorFunction v.2
          if g.1 then do
            let u ← pdb_up g.2
            let nx ← pdb_next u.2
            Except.ok ((joinLines (outputs2 ++ [nx.1.1]), nx.1.2, captured), nx.2)
          else do
            let rt ← pdb_return g.2
            stepOverAux decode f rt.2
              (captured ++ [CapturedCall.call lastFr.function params rt.1.2.2])
              (outputs2 ++ [rt.1.1])
      else
        Except.ok ((joinLines outputs2, s.1.2, captured), w2.2)

/-- Mirror of `_step_over_and_capture_calls`: run the loop with empty
accumulators. -/
def step_over_and_capture_calls (decode : List Char → Option VarsMap) (fuel : Nat)
    (st : SessionSt) : Except PyErr ((List Char × List Char × List CapturedCall) × SessionSt) :=
  stepOverAux decode fuel st [] []

/-- The dictionary `get_current_frame` builds from the current frame. -/
structure RetFrame where
  filename : List Char
  function : List Char
  line_number : Nat
  local_vars : VarsMap
  code : Option (List Char)
  retval : Option (List Char)

/-- The current-frame selection loop of `get_current_frame`: the first frame
flagged current, or nothing (the source raises) when none is. -/
def selectCurrentFrame (frames : List Frame) (localVars : VarsMap) : Option RetFrame :=
  (frames.find? (fun fr => fr.is_current)).map (fun fr =>
    { filename := fr.file, function := fr.function, line_number := fr.line,
      local_vars := localVars, code := fr.code, retval := fr.retval })

/-- Mirror of `get_current_frame`: stack trace, then locals, then the first
current frame; raises when no frame is current. -/
def get_current_frame (decode : List Char → Option VarsMap) (st : SessionSt) :
    Except PyErr (RetFrame × SessionSt) := do
  let w ← pdb_where st
  let v ← get_local_vars decode 4 64 w.2
  match selectCurrentFrame w.1 v.1 with
  | some rf => Except.ok (rf, v.2)
  | none => Except.error PyErr.noCurrentFrame

/-- Typed outbound messages of the websocket gateway. -/
inductive MsgType where
  | errorMsg
  | stateMsg
  | finishedMsg
  | explanationMsg
  | sessionStarted
  | restartComplete
deriving DecidableEq, Repr

/-- Session as the gateway sees it: no session object yet, or a session whose
`is_finished` flag is the given boolean. -/
inductive GwSession where
  | absent
  | live (finished : Bool)
deriving DecidableEq, Repr

/-- Observable outcome of handling one inbound message: the typed messages
sent to the client, whether a step method of the session was invoked, and
whether an exception escaped to the outer handler (which only logs, ending the
message loop without any client-visible response). -/
structure GwOutcome where
  sent : List MsgType
  stepped : Bool
  raised : Bool
deriving DecidableEq, Repr

/-- Mirror of `_handle_simple_command`: a finished session gets a typed error
and is not stepped; otherwise the step runs and a finished or state message is
sent depending on the session state after the step (abstracted as
`finishedAfter`). -/
def handleSimpleCommand (finished finishedAfter : Bool) : GwOutcome :=
  if finished then { sent := [MsgType.errorMsg], stepped := false, raised := false }
  else
    { sent := [if finishedAfter then MsgType.finishedMsg else MsgType.stateMsg],
      stepped := true, raised := false }

/-- Mirror of `handle_explain_step`: a finished session gets a typed error;
otherwise an explanation or, when explanation generation fails, a typed error
is sent (abstracted as `explainOk`); the session is never stepped. -/
def handleExplainStep (finished explainOk : Bool) : GwOutcome :=
  if finished then { sent := [MsgType.errorMsg], stepped := false, raised := false }
  else
    { sent := [if explainOk then MsgType.explanationMsg else MsgType.errorMsg],
      stepped := false, raised := false }

/-- Outcome of the start-session flow (abstracted: the claims here do not
concern its internals). -/
def gwStartOutcome : GwOutcome :=
  { sent := [MsgType.sessionStarted, MsgType.stateMsg], stepped := false, raised := false }

/-- Outcome of the restart flow (abstracted likewise). -/
def gwRestartOutcome : GwOutcome :=
  { sent := [MsgType.sessionStarted, MsgType.restartComplete, MsgType.stateMsg],
    stepped := false, raised := false }

def MSG_START_SESSION : String := "start_session"

def MSG_RESTART : String := "restart"

def MSG_STEP_OVER : String := "step_over"

def MSG_EXPLAIN_STEP : String := "explain_step"

def MSG_STEP_INTO : String := "step_into"

def MSG_STEP_OUT : String := "step_out"

/-- Mirror of the dispatch in `debug_websocket`: start and restart are handled
first; then, before any other kind is examined, a missing session raises a
runtime error that escapes to the outer logging handler (no client response);
then the four known commands dispatch to their handlers and anything else gets
a typed error response. -/
def dispatchMessage (msgType : String) (sess : GwSession)
    (finishedAfter explainOk : Bool) : GwOutcome :=
  if msgType = MSG_START_SESSION then gwStartOutcome
  else if msgType = MSG_RESTART then gwRestartOutcome
  else
    match sess with
    | GwSession.absent => { sent := [], stepped := false, raised := true }
    | GwSession.live finished =>
      if msgType = MSG_STEP_OVER then handleSimpleCommand finished finishedAfter
      else if msgType = MSG_EXPLAIN_STEP then handleExplainStep finished explainOk
      else if msgType = MSG_STEP_INTO then handleSimpleCommand finished finishedAfter
      else if msgType = MSG_STEP_OUT then handleSimpleCommand finished finishedAfter
      else { sent := [MsgType.errorMsg], stepped := false, raised := false }

/-!
Concrete scenario for the step-over claim: the debuggee script

    1  def helper(a):
    2      return a * 2
    3
    4  def main():
    5      y = helper(10)
    6      print(y)
    7
    8  main()

paused at line 5.  The constants below are the exact texts pdb writes for each
command the loop issues, in order (pdb frame headers carry the function name
with a trailing `()`, per the stack-entry formatting of the standard debugger —
consistent with `can_step_out` in the source testing `startswith("main(")`).
Each exchange ends with the prompt. -/

def SCEN_W1 : List Char :=
  "  /app/main.py(8)<module>()\n-> main()\n> /app/main.py(5)main()\n-> y = helper(10)\n(Pdb) ".toList

def SCEN_S1 : List Char :=
  "--Call--\n> /app/main.py(1)helper()\n-> def helper(a):\n(Pdb) ".toList

def SCEN_PEXC : List Char :=
  "*** NameError: name \x27__exception__\x27 is not defined\n(Pdb) ".toList

def SCEN_W2 : List Char :=
  "  /app/main.py(8)<module>()\n-> main()\n  /app/main.py(5)main()\n-> y = helper(10)\n> /app/main.py(1)helper()\n-> def helper(a):\n(Pdb) ".toList

def SCEN_LOC1 : List Char :=
  "\x27\x7b\"a\": \x7b\"id\": 140001, \"repr_tree\": \x7b\"name\": \"a\", \"value\": \"10\", \"kind\": \"primitive\"\x7d\x7d\x7d\x27\n(Pdb) ".toList

def SCEN_LOC1_JSON : List Char :=
  "\x27\x7b\"a\": \x7b\"id\": 140001, \"repr_tree\": \x7b\"name\": \"a\", \"value\": \"10\", \"kind\": \"primitive\"\x7d\x7d\x7d\x27".toList

def SCEN_G1 : List Char := "0\n(Pdb) ".toList

def SCEN_R1 : List Char :=
  "--Return--\n> /app/main.py(2)helper()->20\n-> return a * 2\n(Pdb) ".toList

def SCEN_W3 : List Char :=
  "  /app/main.py(8)<module>()\n-> main()\n  /app/main.py(5)main()\n-> y = helper(10)\n> /app/main.py(2)helper()->20\n-> return a * 2\n(Pdb) ".toList

def SCEN_S2 : List Char :=
  "> /app/main.py(6)main()\n-> print(y)\n(Pdb) ".toList

def SCEN_W4 : List Char :=
  "  /app/main.py(8)<module>()\n-> main()\n> /app/main.py(6)main()\n-> print(y)\n(Pdb) ".toList

def SCEN_LOC2 : List Char :=
  "\x27\x7b\"y\": \x7b\"id\": 140002, \"repr_tree\": \x7b\"name\": \"y\", \"value\": \"20\", \"kind\": \"primitive\"\x7d\x7d\x7d\x27\n(Pdb) ".toList

def SCEN_LOC2_JSON : List Char :=
  "\x27\x7b\"y\": \x7b\"id\": 140002, \"repr_tree\": \x7b\"name\": \"y\", \"value\": \"20\", \"kind\": \"primitive\"\x7d\x7d\x7d\x27".toList

def A_NAME : List Char := "a".toList

def Y_NAME : List Char := "y".toList

def TEN_STR : List Char := "10".toList

def TWENTY_STR : List Char := "20".toList

/-- Decoded variable mapping at the entry of `helper`: the single parameter. -/
def scenVarsA : VarsMap :=
  [(A_NAME, 140001, Node.mk A_NAME TEN_STR KIND_PRIMITIVE [])]

/-- Decoded variable mapping back in `main` after the assignment. -/
def scenVarsY : VarsMap :=
  [(Y_NAME, 140002, Node.mk Y_NAME TWENTY_STR KIND_PRIMITIVE [])]

/-- Scenario decoder: the eval plus json round-trip recovering the mapping the
debuggee serialized (the inverse of `json.dumps` on the two concrete
serializations above). -/
def scenDecode (s : List Char) : Option VarsMap :=
  if s = SCEN_LOC1_JSON then some scenVarsA
  else if s = SCEN_LOC2_JSON then some scenVarsY
  else none

/-- The full stdout stream of the scenario session: the responses to, in
order, where / step / exception probe / where / locals / generator probe /
return / where / step / exception probe / where inside the loop, then the
where and locals that `get_current_frame` issues afterwards. -/
def scenStream : List Char :=
  SCEN_W1 ++ SCEN_S1 ++ SCEN_PEXC ++ SCEN_W2 ++ SCEN_LOC1 ++ SCEN_G1 ++ SCEN_R1 ++
    SCEN_W3 ++ SCEN_S2 ++ SCEN_PEXC ++ SCEN_W4 ++ SCEN_W4 ++ SCEN_LOC2

def scenStart : SessionSt := { alive := true, stream := scenStream, cmds := [] }

def HELPER_PAREN : List Char := "helper()".toList

def HELPER_BARE : List Char := "helper".toList

/-- Scenario run of the step-over capture loop. -/
def c2Run : Except PyErr ((List Char × List Char × List CapturedCall) × SessionSt) :=
  step_over_and_capture_calls scenDecode 5 scenStart

/-- Captured calls of the scenario run. -/
def c2Captured : List CapturedCall :=
  match c2Run with
  | Except.ok r => r.1.2.2
  | Except.error _ => []

/-- Current line before the scenario step (from the first stack trace of the
stream). -/
def c2LineBefore : Option Nat :=
  (selectCurrentFrame (parse_pdb_output (replaceAll SCEN_W1 PDB_PROMPT)).2 []).map
    (fun rf => rf.line_number)

/-- Current line after the scenario step, computed by `get_current_frame` on
the post-loop session state. -/
def c2LineAfter : Option Nat :=
  match c2Run with
  | Except.ok r =>
    match get_current_frame scenDecode r.2 with
    | Except.ok g => some g.1.line_number
    | Except.error _ => none
  | Except.error _ => none

/-! ## Helper lemmas for the bridge read primitive -/

theorem readUpToAux_eq_take (p : List Char) :
    ∀ (f : Nat) (s acc : List Char), ∃ k, readUpToAux p f s acc = acc ++ s.take k := by
  intro f
  induction f with
  | zero => intro s acc; exact ⟨0, by simp [readUpToAux]⟩
  | succ f ih =>
    intro s acc
    cases s with
    | nil => exact ⟨0, by simp [readUpToAux]⟩
    | cons c rest =>
      by_cases h : p.isSuffixOf (acc ++ [c])
      · exact ⟨1, by simp [readUpToAux, h]⟩
      · obtain ⟨k, hk⟩ := ih rest (acc ++ [c])
        refine ⟨k + 1, ?_⟩
        simp [readUpToAux, h, hk, List.take_succ_cons]

theorem readUpToAux_suffix (p : List Char) :
    ∀ (f : Nat) (s acc : List Char), s.length ≤ f →
      (∃ e, 1 ≤ e ∧ e ≤ s.length ∧ p <:+ acc ++ s.take e) →
      p <:+ readUpToAux p f s acc := by
  intro f
  induction f with
  | zero =>
    intro s acc hf he
    obtain ⟨e, he1, he2, _⟩ := he
    omega
  | succ f ih =>
    intro s acc hf he
    obtain ⟨e, he1, he2, hsuf⟩ := he
    cases s with
    | nil => simp at he2; omega
    | cons c rest =>
      obtain ⟨e, rfl⟩ : ∃ k, e = k + 1 := ⟨e - 1, by omega⟩
      rw [List.take_succ_cons] at hsuf
      by_cases h : p.isSuffixOf (acc ++ [c])
      · have : readUpToAux p (f + 1) (c :: rest) acc = acc ++ [c] := by
          simp [readUpToAux, h]
        rw [this]
        exact (List.isSuffixOf_iff_suffix).mp h
      · have hne : 1 ≤ e := by
          rcases Nat.eq_zero_or_pos e with h0 | h1
          · subst h0
            simp at hsuf
            exact absurd ((List.isSuffixOf_iff_suffix).mpr (by simpa using hsuf)) h
          · exact h1
        have step : readUpToAux p (f + 1) (c :: rest) acc = readUpToAux p f rest (acc ++ [c]) := by
          simp [readUpToAux, h]
        rw [step]
        refine ih rest (acc ++ [c]) (by simp at hf; omega) ⟨e, hne, by simp at he2; omega, ?_⟩
        simpa [List.append_assoc] using hsuf


theorem readUpToAux_no_suffix (p : List Char) :
    ∀ (f : Nat) (s acc : List Char), s.length ≤ f →
      (∀ e, 1 ≤ e → e ≤ s.length → ¬ p <:+ acc ++ s.take e) →
      readUpToAux p f s acc = acc ++ s := by
  intro f
  induction f with
  | zero =>
    intro s acc hf _
    have : s = [] := List.length_eq_zero.mp (by omega)
    subst this
    simp [readUpToAux]
  | succ f ih =>
    intro s acc hf hno
    cases s with
    | nil => simp [readUpToAux]
    | cons c rest =>
      have h : p.isSuffixOf (acc ++ [c]) = false := by
        rcases Bool.eq_false_or_eq_true (p.isSuffixOf (acc ++ [c])) with hh | hh
        · exact absurd ((List.isSuffixOf_iff_suffix).mp hh)
            (by simpa using hno 1 le_rfl (by simp))
        · exact hh
      have step : readUpToAux p (f + 1) (c :: rest) acc = readUpToAux p f rest (acc ++ [c]) := by
        simp [readUpToAux, h]
      have hno2 : ∀ e, 1 ≤ e → e ≤ rest.length → ¬ p <:+ (acc ++ [c]) ++ rest.take e := by
        intro e he1 he2
        have := hno (e + 1) (by omega) (by simp; omega)
        simpa [List.append_assoc] using this
      rw [step, ih rest (acc ++ [c]) (by simp at hf; omega) hno2]
      simp

theorem exists_suffix_take_of_occurs {p s : List Char} (hp : p ≠ []) (h : p <:+: s) :
    ∃ e, 1 ≤ e ∧ e ≤ s.length ∧ p <:+ s.take e := by
  obtain ⟨a, b, hab⟩ := h
  refine ⟨a.length + p.length, ?_, ?_, ?_⟩
  · have := List.length_pos.mpr hp
    omega
  · subst hab; simp
  · subst hab
    rw [show a ++ p ++ b = (a ++ p) ++ b from rfl,
      List.take_left' (by simp)]
    exact ⟨a, rfl⟩

theorem infix_of_suffix_take {p s : List Char} {e : Nat} (h : p <:+ s.take e) : p <:+: s := by
  obtain ⟨t, ht⟩ := h
  exact ⟨t, s.drop e, by rw [ht, List.take_append_drop]⟩

/-- C9: the bridge read primitive `_read_up_to` returns the accumulated text
including the marker whenever the marker occurs in the stream, and when the
stream ends before the marker ever appears it returns exactly the characters
read so far (the whole stream, possibly empty) without raising; the result is
always a prefix of the stream. -/
theorem c9_read_until (p stream : List Char) :
    (p <:+: stream → p <:+ readUpTo p stream ∧ readUpTo p stream <+: stream) ∧
    (¬ p <:+: stream → readUpTo p stream = stream) := by
  constructor
  · intro h
    constructor
    · by_cases hp : p = []
      · subst hp; exact List.nil_suffix
      · exact readUpToAux_suffix p stream.length stream [] le_rfl
          (by simpa using exists_suffix_take_of_occurs hp h)
    · obtain ⟨k, hk⟩ := readUpToAux_eq_take p stream.length stream []
      rw [readUpTo, hk]
      simpa using List.take_prefix k stream
  · intro h
    have := readUpToAux_no_suffix p stream.length stream [] le_rfl
      (fun e _ _ hsuf => h (@infix_of_suffix_take p stream e (by simpa using hsuf)))
    simpa using this

def C9_STREAM : List Char := "hello\n(Pdb) trailing".toList

theorem c9_read_until_witness :
    PDB_PROMPT <:+: C9_STREAM ∧
      (PDB_PROMPT <:+ readUpTo PDB_PROMPT C9_STREAM ∧
        readUpTo PDB_PROMPT C9_STREAM <+: C9_STREAM) := by
  have h : PDB_PROMPT <:+: C9_STREAM := by decide
  exact ⟨h, (c9_read_until PDB_PROMPT C9_STREAM).1 h⟩

/-! ## C1: reserved-marker selection -/

def C1_STREAM : List Char := "--Return--\n--Call--\n(Pdb) ".toList

def c1St : SessionSt := { alive := true, stream := C1_STREAM, cmds := [] }

def C1_RAW : List Char := "--Return--\n--Call--\n".toList

/-- C1 counterexample: a raw text between two prompts in which the return
marker occurs first textually (index 0) and the call marker later (index 11);
`_read_user_and_pdb_output` reports the call marker — the first in its fixed
check order, not the textually first — and truncates the program output at the
call marker's position rather than at the textually first marker's position. -/
theorem c1_counterexample :
    replaceAll (readUpTo PDB_PROMPT C1_STREAM) PDB_PROMPT = C1_RAW ∧
    findSub RETURN_PATTERN C1_RAW = some 0 ∧
    findSub CALL_PATTERN C1_RAW = some 11 ∧
    (readUserAndPdbOutput c1St).1.2.1 = CALL_PATTERN ∧
    CALL_PATTERN ≠ RETURN_PATTERN ∧
    (readUserAndPdbOutput c1St).1.1 ≠ C1_RAW.take 0 := by
  refine ⟨by decide, by decide, by decide, by decide, by decide, by decide⟩

/-- C1 amended: the control marker reported by the marker scan of
`_read_user_and_pdb_output` is the first one in the fixed priority order call,
return, program-finished that occurs anywhere in the raw text; the program
output is truncated at that marker's first textual occurrence.  When only one
marker occurs this coincides with the claim as written. -/
theorem c1_marker_priority (raw po : List Char) (i : Nat) :
    (findSub CALL_PATTERN raw = some i →
      applyMarkers raw po = (raw.take i, CALL_PATTERN)) ∧
    (findSub CALL_PATTERN raw = none → findSub RETURN_PATTERN raw = some i →
      applyMarkers raw po = (raw.take i, RETURN_PATTERN)) ∧
    (findSub CALL_PATTERN raw = none → findSub RETURN_PATTERN raw = none →
      findSub PROGRAM_FINISHED_PATTERN raw = some i →
      applyMarkers raw po = (raw.take i, PROGRAM_FINISHED_PATTERN)) ∧
    (findSub CALL_PATTERN raw = none → findSub RETURN_PATTERN raw = none →
      findSub PROGRAM_FINISHED_PATTERN raw = none →
      applyMarkers raw po = (po, [])) := by
  refine ⟨?_, ?_, ?_, ?_⟩
  · intro h1
    simp [applyMarkers, h1]
  · intro h1 h2
    simp [applyMarkers, h1, h2]
  · intro h1 h2 h3
    simp [applyMarkers, h1, h2, h3]
  · intro h1 h2 h3
    simp [applyMarkers, h1, h2, h3]

theorem c1_marker_priority_witness :
    findSub CALL_PATTERN C1_RAW = some 11 ∧
      applyMarkers C1_RAW [] = (C1_RAW.take 11, CALL_PATTERN) := by
  have h : findSub CALL_PATTERN C1_RAW = some 11 := by decide
  exact ⟨h, (c1_marker_priority C1_RAW [] 11).1 h⟩

/-! ## C3: parser fallback and frame-less tolerance -/

def C3_INPUT : List Char := "> x".toList

/-- C3 counterexample: on the input consisting of the single line greater-than
space x, the boundary shape matches but neither frame shape does, so the parser
returns an empty frame list — yet the program output is empty, not the raw
text as the claim states. -/
theorem c3_counterexample :
    parse_pdb_output C3_INPUT = ([], []) ∧ (parse_pdb_output C3_INPUT).1 ≠ C3_INPUT := by
  refine ⟨by decide, by decide⟩

/-- C3 amended: the parser is total (it is a function, never raising) and when
no line of the input matches the frame-boundary shape it returns the raw text
as program output with an empty frame list; when a boundary line exists but no
frame shape matches, the program output is the pre-boundary prefix instead.
The current-frame selection of `get_current_frame`, however, does not tolerate
a frame list without a current frame: it finds nothing and the source raises
(modelled by `none`, mapped to an error by `get_current_frame`). -/
theorem c3_parser_total_fallback :
    (∀ s : List Char, ((splitLines s).all fun l => !isFrameBoundaryLine l) →
      parse_pdb_output s = (s, [])) ∧
    (∀ lv : VarsMap, selectCurrentFrame [] lv = none) := by
  constructor
  · intro s h
    have hidx : (splitLines s).findIdx? isFrameBoundaryLine = none := by
      rw [List.findIdx?_eq_none_iff]
      intro x hx
      simpa using List.all_eq_true.mp h x hx
    simp [parse_pdb_output, hidx]
  · intro lv
    simp [selectCurrentFrame]

def C3W_INPUT : List Char := "hello\nworld".toList

theorem c3_parser_total_fallback_witness :
    ((splitLines C3W_INPUT).all fun l => !isFrameBoundaryLine l) = true ∧
      parse_pdb_output C3W_INPUT = (C3W_INPUT, []) := by
  have h : ((splitLines C3W_INPUT).all fun l => !isFrameBoundaryLine l) = true := by decide
  exact ⟨h, c3_parser_total_fallback.1 C3W_INPUT h⟩

/-! ## C8: the is-current flag -/

theorem tryFrameWithCode_is_current {l1 : List Char} {l2 : Option (List Char)} {fr : Frame}
    (h : tryFrameWithCode l1 l2 = some fr) : fr.is_current = (l1.head? == some '>') := by
  unfold tryFrameWithCode at h
  rcases Option.map_eq_some'.mp h with ⟨g, _, hfr⟩
  rw [← hfr]

theorem tryFrameString_is_current {l1 : List Char} {fr : Frame}
    (h : tryFrameString l1 = some fr) : fr.is_current = (l1.head? == some '>') := by
  unfold tryFrameString at h
  rcases Option.map_eq_some'.mp h with ⟨g, _, hfr⟩
  rw [← hfr]

theorem parseFramesAux_countP_current : ∀ (f : Nat) (ls : List (List Char)),
    (parseFramesAux f ls).countP (fun fr => fr.is_current) ≤
      ls.countP (fun l => l.head? == some '>') := by
  intro f
  induction f with
  | zero => intro ls; simp [parseFramesAux]
  | succ f ih =>
    intro ls
    cases ls with
    | nil => simp [parseFramesAux]
    | cons l rest =>
      rw [parseFramesAux]
      rcases h1 : tryFrameWithCode l rest.head? with _ | fr
      · rcases h2 : tryFrameString l with _ | fr
        · simp only [List.countP_cons]
          calc (parseFramesAux f rest).countP (fun fr => fr.is_current)
              ≤ rest.countP (fun ln => ln.head? == some '>') := ih rest
            _ ≤ _ := Nat.le_add_right _ _
        · simp only [List.countP_cons]
          have hcur := tryFrameString_is_current h2
          have hrec := ih rest
          by_cases hl : (l.head? == some '>') = true
          · simp only [hcur, hl]
            omega
          · simp only [hcur, hl]
            omega
      · simp only [List.countP_cons]
        have hcur := tryFrameWithCode_is_current h1
        have hrec := ih rest.tail
        have htail : rest.tail.countP (fun ln => ln.head? == some '>') ≤
            rest.countP (fun ln => ln.head? == some '>') :=
          (List.tail_sublist rest).countP_le _
        by_cases hl : (l.head? == some '>') = true
        · simp only [hcur, hl]
          omega
        · simp only [hcur, hl]
          omega

/-- C8 amended: each parsed frame is flagged current exactly when its header
line begins with a greater-than sign, so the number of current frames in any
parse result is bounded by the number of input lines beginning with one — at
most one for genuine pdb output, but not for arbitrary input text. -/
theorem c8_current_count_bound (output_text : List Char) :
    (parse_pdb_output output_text).2.countP (fun fr => fr.is_current) ≤
      (splitLines output_text).countP (fun l => l.head? == some '>') := by
  unfold parse_pdb_output
  rcases h : (splitLines output_text).findIdx? isFrameBoundaryLine with _ | i
  · simp [h]
  · simp only [h]
    calc (parseFramesAux ((splitLines output_text).drop i).length
            ((splitLines output_text).drop i)).countP (fun fr => fr.is_current)
        ≤ ((splitLines output_text).drop i).countP (fun l => l.head? == some '>') :=
          parseFramesAux_countP_current _ _
      _ ≤ _ := (List.drop_sublist i _).countP_le _

def C8_INPUT : List Char := "> a.py(1)f()\n->x\n> a.py(2)g()\n->y".toList

/-- C8 counterexample: an input with two lines beginning with a greater-than
sign parses to a frame list with two frames flagged current, violating the
at-most-one bound claimed for every input text. -/
theorem c8_counterexample :
    (parse_pdb_output C8_INPUT).2.countP (fun fr => fr.is_current) = 2 ∧
      ¬ ((parse_pdb_output C8_INPUT).2.countP (fun fr => fr.is_current) ≤ 1) := by
  refine ⟨by decide, by decide⟩

/-! ## Helper lemmas for the variable tree builder -/

theorem buildChildren_length (g : List Char → Nat → List Nat → Node × List Nat) :
    ∀ (l : List (List Char × Nat)) (seen : List Nat),
      (buildChildren g l seen).1.length = l.length := by
  intro l
  induction l with
  | nil => intro seen; rfl
  | cons kv rest ih =>
    intro seen
    simp [buildChildren, ih]

theorem buildChildren_snd {g : List Char → Nat → List Nat → Node × List Nat}
    (hg : ∀ nm cid s, (g nm cid s).2 = s) :
    ∀ (l : List (List Char × Nat)) (seen : List Nat), (buildChildren g l seen).2 = seen := by
  intro l
  induction l with
  | nil => intro seen; rfl
  | cons kv rest ih =>
    intro seen
    simp [buildChildren, ih, hg]

theorem buildAttrChildren_snd {g : List Char → Nat → List Nat → Node × List Nat}
    (hg : ∀ nm cid s, (g nm cid s).2 = s) :
    ∀ (l : List (List Char × Nat)) (seen : List Nat), (buildAttrChildren g l seen).2 = seen := by
  intro l
  induction l with
  | nil => intro seen; rfl
  | cons kv rest ih =>
    intro seen
    by_cases hk : isDunderName kv.1
    · simp [buildAttrChildren, hk, ih]
    · simp [buildAttrChildren, hk, ih, hg]

theorem buildAttrChildren_length_no_dunder
    (g : List Char → Nat → List Nat → Node × List Nat) :
    ∀ (l : List (List Char × Nat)) (seen : List Nat),
      (l.all fun kv => !isDunderName kv.1) →
      (buildAttrChildren g l seen).1.length = l.length := by
  intro l
  induction l with
  | nil => intro seen _; rfl
  | cons kv rest ih =>
    intro seen hall
    simp only [List.all_cons, Bool.and_eq_true, Bool.not_eq_true'] at hall
    simp [buildAttrChildren, hall.1, ih _ (by simpa using hall.2)]

theorem buildChildren_congr {g1 g2 : List Char → Nat → List Nat → Node × List Nat}
    (hg : ∀ nm cid s, g1 nm cid s = g2 nm cid s) :
    ∀ (l : List (List Char × Nat)) (seen : List Nat),
      buildChildren g1 l seen = buildChildren g2 l seen := by
  intro l
  induction l with
  | nil => intro seen; rfl
  | cons kv rest ih =>
    intro seen
    simp [buildChildren, hg, ih]

theorem buildAttrChildren_congr {g1 g2 : List Char → Nat → List Nat → Node × List Nat}
    (hg : ∀ nm cid s, g1 nm cid s = g2 nm cid s) :
    ∀ (l : List (List Char × Nat)) (seen : List Nat),
      buildAttrChildren g1 l seen = buildAttrChildren g2 l seen := by
  intro l
  induction l with
  | nil => intro seen; rfl
  | cons kv rest ih =>
    intro seen
    by_cases hk : isDunderName kv.1
    · simp [buildAttrChildren, hk, ih]
    · simp [buildAttrChildren, hk, hg, ih]

theorem makeNodeAux_seen (heap : Heap) (maxD maxC : Nat) :
    ∀ (f : Nat) (nm : List Char) (oid depth : Nat) (seen : List Nat),
      (makeNodeAux heap maxD maxC f nm oid depth seen).2 = seen := by
  intro f
  induction f with
  | zero => intro nm oid depth seen; rfl
  | succ f ih =>
    intro nm oid depth seen
    have hg : ∀ nm2 cid s, (makeNodeAux heap maxD maxC f nm2 cid (depth + 1) s).2 = s :=
      fun nm2 cid s => ih nm2 cid (depth + 1) s
    unfold makeNodeAux
    by_cases hc : oid ∈ seen
    · simp [hc]
    · by_cases hd : maxD < depth
      · simp [hc, hd]
      · cases hh : heap oid with
        | prim rep => simp [hc, hd, hh]
        | olist rep elems =>
          simp [hc, hd, hh, buildChildren_snd hg, List.erase_cons_head]
        | otuple rep elems =>
          simp [hc, hd, hh, buildChildren_snd hg, List.erase_cons_head]
        | odict rep entries =>
          simp [hc, hd, hh, buildChildren_snd hg, List.erase_cons_head]
        | oset rep elems =>
          simp [hc, hd, hh, buildChildren_snd hg, List.erase_cons_head]
        | oinst rep attrs =>
          simp [hc, hd, hh, buildAttrChildren_snd hg, List.erase_cons_head]
        | oslots rep slots =>
          simp [hc, hd, hh, buildChildren_snd hg, List.erase_cons_head]
        | oother rep => simp [hc, hd, hh]

theorem makeNodeAux_fuel_stable (heap : Heap) (maxD maxC : Nat) :
    ∀ (f g : Nat) (nm : List Char) (oid depth : Nat) (seen : List Nat),
      1 ≤ f → 1 ≤ g → maxD + 2 ≤ f + depth → maxD + 2 ≤ g + depth →
      makeNodeAux heap maxD maxC f nm oid depth seen =
        makeNodeAux heap maxD maxC g nm oid depth seen := by
  intro f
  induction f with
  | zero =>
    intro g nm oid depth seen h1
    omega
  | succ f ih =>
    intro g nm oid depth seen h1 h2 h3 h4
    cases g with
    | zero => omega
    | succ g =>
      by_cases hd : maxD < depth
      · unfold makeNodeAux
        by_cases hc : oid ∈ seen
        · simp [hc]
        · simp [hc, hd]
      · have hf1 : 1 ≤ f := by omega
        have hg1 : 1 ≤ g := by omega
        have hf3 : maxD + 2 ≤ f + (depth + 1) := by omega
        have hg3 : maxD + 2 ≤ g + (depth + 1) := by omega
        have hcong := @buildChildren_congr
          (fun nm2 cid s => makeNodeAux heap maxD maxC f nm2 cid (depth + 1) s)
          (fun nm2 cid s => makeNodeAux heap maxD maxC g nm2 cid (depth + 1) s)
          (fun nm2 cid s => ih g nm2 cid (depth + 1) s hf1 hg1 hf3 hg3)
        have hacong := @buildAttrChildren_congr
          (fun nm2 cid s => makeNodeAux heap maxD maxC f nm2 cid (depth + 1) s)
          (fun nm2 cid s => makeNodeAux heap maxD maxC g nm2 cid (depth + 1) s)
          (fun nm2 cid s => ih g nm2 cid (depth + 1) s hf1 hg1 hf3 hg3)
        unfold makeNodeAux
        by_cases hc : oid ∈ seen
        · simp [hc]
        · cases hh : heap oid with
          | prim rep => simp [hc, hd, hh]
          | olist rep elems => simp [hc, hd, hh, hcong]
          | otuple rep elems => simp [hc, hd, hh, hcong]
          | odict rep entries => simp [hc, hd, hh, hcong]
          | oset rep elems => simp [hc, hd, hh, hcong]
          | oinst rep attrs => simp [hc, hd, hh, hacong]
          | oslots rep slots => simp [hc, hd, hh, hcong]
          | oother rep => simp [hc, hd, hh]

/-! ## C6: termination and cycle safety -/

def ONE_STR : List Char := "1".toList

def TWO_STR : List Char := "2".toList

/-- Heap of the self-referential list `[1, 2, <itself>]`: identity 0 is the
list, whose third element is identity 0 again. -/
def cycleHeap : Heap := fun oid =>
  if oid == 1 then Obj.prim ONE_STR
  else if oid == 2 then Obj.prim TWO_STR
  else Obj.olist ("[1, 2, [...]]".toList) [1, 2, 0]

def LST_NAME : List Char := "lst".toList

/-- The tree `build_var_tree` produces for the self-referential list bound to
one top-level variable, at the default bounds. -/
def c6Tree : VarsMap := build_var_tree cycleHeap [(LST_NAME, 0)] 4 64

/-- C6: the tree construction terminates on every finite object graph with
arbitrary cycles — the recursion is controlled by the depth guard alone, so the
computed tree is independent of the model fuel once the fuel covers the depth
budget (first conjunct); and for the self-referential list `[1, 2, <itself>]`
the third child of the resulting tree is a node whose value is the cycle
marker (second conjunct). -/
theorem c6_cycle_termination :
    (∀ (heap : Heap) (maxD maxC f g : Nat) (nm : List Char) (oid depth : Nat)
        (seen : List Nat),
      1 ≤ f → 1 ≤ g → maxD + 2 ≤ f + depth → maxD + 2 ≤ g + depth →
      makeNodeAux heap maxD maxC f nm oid depth seen =
        makeNodeAux heap maxD maxC g nm oid depth seen) ∧
    (c6Tree.head?.map fun e => (e.2.2.children.get? 2).map Node.value)
      = some (some CYCLE_STR) := by
  constructor
  · exact fun heap maxD maxC f g nm oid depth seen =>
      makeNodeAux_fuel_stable heap maxD maxC f g nm oid depth seen
  · decide

theorem c6_cycle_termination_witness :
    (1 ≤ 7 ∧ 1 ≤ 9 ∧ 4 + 2 ≤ 7 + 0 ∧ 4 + 2 ≤ 9 + 0) ∧
      makeNodeAux cycleHeap 4 64 7 LST_NAME 0 0 [] =
        makeNodeAux cycleHeap 4 64 9 LST_NAME 0 0 [] :=
  ⟨⟨by omega, by omega, by omega, by omega⟩,
    c6_cycle_termination.1 cycleHeap 4 64 7 9 LST_NAME 0 0 []
      (by omega) (by omega) (by omega) (by omega)⟩

/-! ## C7: seen-set scoping -/

def V_NAME : List Char := "v".toList

/-- Diamond-shaped acyclic heap: the root list 0 holds lists 1 and 2, which
both hold the same list 3, which holds the primitive 4. -/
def diamondHeap : Heap := fun oid =>
  if oid == 1 then Obj.olist ("[[5]]".toList) [3]
  else if oid == 2 then Obj.olist ("[[5]]".toList) [3]
  else if oid == 3 then Obj.olist ("[5]".toList) [4]
  else if oid == 4 then Obj.prim ("5".toList)
  else Obj.olist ("[[[5]], [[5]]]".toList) [1, 2]

def c7DiamondNode : Node := (makeNodeAux diamondHeap 4 64 6 V_NAME 0 0 []).1

/-- Heap where identity 0 is a list containing itself. -/
def selfHeap : Heap := fun _ => Obj.olist ("[[...]]".toList) [0]

def c7CycleNode : Node := (makeNodeAux selfHeap 4 64 6 V_NAME 0 0 []).1

def FIVE_LIST_REP : List Char := "[5]".toList

/-- C7: an object identity is a member of the seen set exactly while its own
children are built — every call returns the seen set it was given (first
conjunct); hence the shared node of a diamond-shaped acyclic graph is expanded
as a list on both paths, its value being the list repr and not the cycle
marker (middle conjuncts), while a list reachable from itself is rendered as
the cycle marker at the revisit (last conjunct). -/
theorem c7_seen_scoping :
    (∀ (heap : Heap) (maxD maxC f : Nat) (nm : List Char) (oid depth : Nat)
        (seen : List Nat),
      (makeNodeAux heap maxD maxC f nm oid depth seen).2 = seen) ∧
    ((c7DiamondNode.children.get? 0).map (fun n => (n.children.get? 0).map Node.kind)
        = some (some KIND_LIST) ∧
      (c7DiamondNode.children.get? 1).map (fun n => (n.children.get? 0).map Node.kind)
        = some (some KIND_LIST) ∧
      (c7DiamondNode.children.get? 0).map (fun n => (n.children.get? 0).map Node.value)
        = some (some FIVE_LIST_REP) ∧
      (c7DiamondNode.children.get? 1).map (fun n => (n.children.get? 0).map Node.value)
        = some (some FIVE_LIST_REP)) ∧
    (c7CycleNode.children.get? 0).map Node.value = some CYCLE_STR := by
  refine ⟨fun heap maxD maxC f nm oid depth seen =>
    makeNodeAux_seen heap maxD maxC f nm oid depth seen, ⟨?_, ?_, ?_, ?_⟩, ?_⟩
  · decide
  · decide
  · decide
  · decide
  · decide

/-! ## C5: truncation of oversized containers -/

theorem enumNames_length (l : List Nat) : (enumNames l).length = l.length := by
  simp [enumNames]

/-- C5 amended: an oversized list, tuple, dictionary or set (size strictly
above `max_children`, expanded at legal depth and not detected as a cycle)
yields exactly `max_children + 1` children, the last being the synthetic more
leaf counting the dropped children.  For an instance attribute mapping the same
holds provided none of the first `max_children` attribute names is
dunder-shaped: dunder attributes among them are skipped and reduce the child
count below `max_children + 1`. -/
theorem c5_truncation :
    (∀ (f : Nat) (heap : Heap) (nm : List Char) (oid depth maxD maxC : Nat)
        (seen : List Nat) (rep : List Char) (elems : List Nat),
      heap oid = Obj.olist rep elems → seen.contains oid = false → depth ≤ maxD →
      maxC < elems.length →
      (makeNodeAux heap maxD maxC (f + 1) nm oid depth seen).1.children.length = maxC + 1 ∧
      (makeNodeAux heap maxD maxC (f + 1) nm oid depth seen).1.children.getLast? =
        some (moreNode (elems.length - maxC))) ∧
    (∀ (f : Nat) (heap : Heap) (nm : List Char) (oid depth maxD maxC : Nat)
        (seen : List Nat) (rep : List Char) (elems : List Nat),
      heap oid = Obj.otuple rep elems → seen.contains oid = false → depth ≤ maxD →
      maxC < elems.length →
      (makeNodeAux heap maxD maxC (f + 1) nm oid depth seen).1.children.length = maxC + 1 ∧
      (makeNodeAux heap maxD maxC (f + 1) nm oid depth seen).1.children.getLast? =
        some (moreNode (elems.length - maxC))) ∧
    (∀ (f : Nat) (heap : Heap) (nm : List Char) (oid depth maxD maxC : Nat)
        (seen : List Nat) (rep : List Char) (entries : List (List Char × Nat)),
      heap oid = Obj.odict rep entries → seen.contains oid = false → depth ≤ maxD →
      maxC < entries.length →
      (makeNodeAux heap maxD maxC (f + 1) nm oid depth seen).1.children.length = maxC + 1 ∧
      (makeNodeAux heap maxD maxC (f + 1) nm oid depth seen).1.children.getLast? =
        some (moreNode (entries.length - maxC))) ∧
    (∀ (f : Nat) (heap : Heap) (nm : List Char) (oid depth maxD maxC : Nat)
        (seen : List Nat) (rep : List Char) (elems : List Nat),
      heap oid = Obj.oset rep elems → seen.contains oid = false → depth ≤ maxD →
      maxC < elems.length →
      (makeNodeAux heap maxD maxC (f + 1) nm oid depth seen).1.children.length = maxC + 1 ∧
      (makeNodeAux heap maxD maxC (f + 1) nm oid depth seen).1.children.getLast? =
        some (moreNode (elems.length - maxC))) ∧
    (∀ (f : Nat) (heap : Heap) (nm : List Char) (oid depth maxD maxC : Nat)
        (seen : List Nat) (rep : List Char) (attrs : List (List Char × Nat)),
      heap oid = Obj.oinst rep attrs → seen.contains oid = false → depth ≤ maxD →
      maxC < attrs.length →
      ((attrs.take maxC).all fun kv => !isDunderName kv.1) →
      (makeNodeAux heap maxD maxC (f + 1) nm oid depth seen).1.children.length = maxC + 1 ∧
      (makeNodeAux heap maxD maxC (f + 1) nm oid depth seen).1.children.getLast? =
        some (moreNode (attrs.length - maxC))) := by
  refine ⟨?_, ?_, ?_, ?_, ?_⟩
  · intro f heap nm oid depth maxD maxC seen rep elems hh hns hd hlen
    have hc : ¬ oid ∈ seen := by simpa using hns
    have hd2 : ¬ maxD < depth := by omega
    unfold makeNodeAux
    constructor
    · simp [hc, hd2, hh, hlen, buildChildren_length, enumNames_length,
        Node.children, Nat.min_eq_left (Nat.le_of_lt hlen)]
    · simp [hc, hd2, hh, hlen, Node.children, List.getLast?_concat]
  · intro f heap nm oid depth maxD maxC seen rep elems hh hns hd hlen
    have hc : ¬ oid ∈ seen := by simpa using hns
    have hd2 : ¬ maxD < depth := by omega
    unfold makeNodeAux
    constructor
    · simp [hc, hd2, hh, hlen, buildChildren_length, enumNames_length,
        Node.children, Nat.min_eq_left (Nat.le_of_lt hlen)]
    · simp [hc, hd2, hh, hlen, Node.children, List.getLast?_concat]
  · intro f heap nm oid depth maxD maxC seen rep entries hh hns hd hlen
    have hc : ¬ oid ∈ seen := by simpa using hns
    have hd2 : ¬ maxD < depth := by omega
    unfold makeNodeAux
    constructor
    · simp [hc, hd2, hh, hlen, buildChildren_length,
        Node.children, Nat.min_eq_left (Nat.le_of_lt hlen)]
    · simp [hc, hd2, hh, hlen, Node.children, List.getLast?_concat]
  · intro f heap nm oid depth maxD maxC seen rep elems hh hns hd hlen
    have hc : ¬ oid ∈ seen := by simpa using hns
    have hd2 : ¬ maxD < depth := by omega
    unfold makeNodeAux
    constructor
    · simp [hc, hd2, hh, hlen, buildChildren_length, enumNames_length,
        Node.children, Nat.min_eq_left (Nat.le_of_lt hlen)]
    · simp [hc, hd2, hh, hlen, Node.children, List.getLast?_concat]
  · intro f heap nm oid depth maxD maxC seen rep attrs hh hns hd hlen hall
    have hc : ¬ oid ∈ seen := by simpa using hns
    have hd2 : ¬ maxD < depth := by omega
    have hta : (buildAttrChildren
        (fun nm2 cid s => makeNodeAux heap maxD maxC f nm2 cid (depth + 1) s)
        (attrs.take maxC) (oid :: seen)).1.length = maxC := by
      rw [buildAttrChildren_length_no_dunder _ _ _ hall]
      simp [Nat.min_eq_left (Nat.le_of_lt hlen)]
    unfold makeNodeAux
    constructor
    · simp [hc, hd2, hh, hlen, hta, Node.children]
    · simp [hc, hd2, hh, hlen, Node.children, List.getLast?_concat]

def DUND_X : List Char := "__x__".toList

/-- Instance whose first attribute is dunder-named: identity 0 has the
attribute mapping with keys dunder-x and a, identity 1 the primitive 1. -/
def c5Heap : Heap := fun oid =>
  if oid == 1 then Obj.prim ONE_STR
  else Obj.oinst ("<C object>".toList) [(DUND_X, 1), (A_NAME, 1)]

def c5Node : Node := (makeNodeAux c5Heap 4 1 6 V_NAME 0 0 []).1

/-- C5 counterexample: an instance attribute mapping of size two with
`max_children` one — strictly oversized — produces one child, not the claimed
`max_children + 1 = 2`: the dunder-named attribute among the first
`max_children` is skipped. -/
theorem c5_counterexample :
    c5Node.children.length = 1 ∧ c5Node.children.length ≠ 1 + 1 := by
  refine ⟨by decide, by decide⟩

def SEVENS_REP : List Char := "[7, 7, 7]".toList

def c5wHeap : Heap := fun oid =>
  if oid == 0 then Obj.olist SEVENS_REP [1, 1, 1] else Obj.prim ("7".toList)

theorem c5_truncation_witness :
    (([] : List Nat).contains 0 = false ∧ (0 : Nat) ≤ 4 ∧ 2 < 3) ∧
      ((makeNodeAux c5wHeap 4 2 (4 + 1) V_NAME 0 0 []).1.children.length = 2 + 1 ∧
        (makeNodeAux c5wHeap 4 2 (4 + 1) V_NAME 0 0 []).1.children.getLast? =
          some (moreNode (3 - 2))) := by
  refine ⟨⟨by decide, by decide, by decide⟩, ?_⟩
  exact c5_truncation.1 4 c5wHeap V_NAME 0 0 4 2 [] SEVENS_REP [1, 1, 1]
    rfl (by decide) (by decide) (by decide)

/-! ## C2: the step-over scenario -/

/-- C2 counterexample: stepping over `y = helper(10)` where `helper` returns
`20` produces exactly one CapturedCall whose parameters map a to 10 and whose
return value is 20 — but its function field is the pdb frame text with the
trailing parentheses, not the bare name the claim states. -/
theorem c2_counterexample :
    c2Captured = [CapturedCall.call HELPER_PAREN [(A_NAME, TEN_STR)] TWENTY_STR] ∧
      HELPER_PAREN ≠ HELPER_BARE := by
  refine ⟨by decide, by decide⟩

/-- C2 amended: `step_over` on the line `y = helper(10)` where `helper` returns
`20` produces exactly one CapturedCall with function text `helper()` (pdb
renders frame function names with a trailing parameter-list marker), parameters
mapping a to 10 and return value 20, and the current line advances from the
call line to the following line. -/
theorem c2_step_over_capture :
    c2Captured = [CapturedCall.call HELPER_PAREN [(A_NAME, TEN_STR)] TWENTY_STR] ∧
      c2LineBefore = some 5 ∧ c2LineAfter = some 6 := by
  refine ⟨by decide, by decide, by decide⟩

/-! ## C10: the pending-exception check -/

def c10Start : SessionSt := { alive := true, stream := SCEN_W1 ++ SCEN_S2, cmds := [] }

/-- The captured calls of a step-over whose debuggee stream ends right after
the single step (the process exited): the exception probe reads an empty
output. -/
def c10Captured : List CapturedCall :=
  match step_over_and_capture_calls (fun _ => none) 3 c10Start with
  | Except.ok r => r.1.2.2
  | Except.error _ => []

/-- C10: the pending-exception check reports an exception pending exactly when
the printed evaluation of the reserved exception slot does not start with the
name-error prefix (first conjunct); in particular an empty evaluation output,
as produced when the debuggee stream has ended, is classified as pending
(second conjunct); and a step-over whose stream ends after the step records a
single exception CapturedCall and stops its loop (third conjunct). -/
theorem c10_exception_check :
    (∀ (st st2 : SessionSt) (po : List Char),
      pdb_p EXC_EXPR st = Except.ok (po, st2) →
      is_exception_raised st = Except.ok (!(NAME_ERROR_MARK.isPrefixOf po), st2)) ∧
    (∀ st : SessionSt, st.alive = true → st.stream = [] →
      ∃ st2, is_exception_raised st = Except.ok (true, st2)) ∧
    c10Captured = [CapturedCall.exception [] []] := by
  refine ⟨?_, ?_, by decide⟩
  · intro st st2 po h
    unfold is_exception_raised
    rw [h]
    rfl
  · intro st h1 h2
    obtain ⟨al, strm, cs⟩ := st
    simp only at h1 h2
    subst h1
    subst h2
    exact ⟨_, rfl⟩

def PEXC_CMD : List Char := CMD_P_HEAD ++ EXC_EXPR ++ ['\n']

def c10wSt : SessionSt := { alive := true, stream := SCEN_PEXC, cmds := [] }

def c10wPo : List Char := (readUserAndPdbOutput (writeCommand PEXC_CMD c10wSt)).1.1

def c10wSt2 : SessionSt := (readUserAndPdbOutput (writeCommand PEXC_CMD c10wSt)).2

theorem c10_exception_check_witness :
    pdb_p EXC_EXPR c10wSt = Except.ok (c10wPo, c10wSt2) ∧
      is_exception_raised c10wSt =
        Except.ok (!(NAME_ERROR_MARK.isPrefixOf c10wPo), c10wSt2) := by
  have h : pdb_p EXC_EXPR c10wSt = Except.ok (c10wPo, c10wSt2) := rfl
  exact ⟨h, c10_exception_check.1 c10wSt c10wSt2 c10wPo h⟩

/-! ## C4: gateway error dispatch -/

/-- C4 counterexample: a step request while no session exists does not produce
a typed error response — the dispatch raises a runtime error that the outer
handler only logs, so nothing at all is sent to the client. -/
theorem c4_counterexample :
    dispatchMessage MSG_STEP_OVER GwSession.absent false false =
      { sent := [], stepped := false, raised := true } ∧
    ¬ MsgType.errorMsg ∈ (dispatchMessage MSG_STEP_OVER GwSession.absent false false).sent := by
  refine ⟨by decide, by decide⟩

/-- C4 amended: with a live session, every message of unknown kind gets a typed
error response (first conjunct); a step or explain request — indeed any
non-start, non-restart message — while no session exists raises internally and
sends nothing (second conjunct); a step or explain request after the session
finished gets a typed error response and the session is not stepped (third
conjunct). -/
theorem c4_error_dispatch :
    (∀ (t : String) (finished finishedAfter explainOk : Bool),
      t ≠ MSG_START_SESSION → t ≠ MSG_RESTART → t ≠ MSG_STEP_OVER → t ≠ MSG_EXPLAIN_STEP →
      t ≠ MSG_STEP_INTO → t ≠ MSG_STEP_OUT →
      dispatchMessage t (GwSession.live finished) finishedAfter explainOk =
        { sent := [MsgType.errorMsg], stepped := false, raised := false }) ∧
    (∀ (t : String) (finishedAfter explainOk : Bool),
      t ≠ MSG_START_SESSION → t ≠ MSG_RESTART →
      dispatchMessage t GwSession.absent finishedAfter explainOk =
        { sent := [], stepped := false, raised := true }) ∧
    (∀ (finishedAfter explainOk : Bool) (t : String),
      (t = MSG_STEP_OVER ∨ t = MSG_STEP_INTO ∨ t = MSG_STEP_OUT ∨ t = MSG_EXPLAIN_STEP) →
      dispatchMessage t (GwSession.live true) finishedAfter explainOk =
        { sent := [MsgType.errorMsg], stepped := false, raised := false }) := by
  refine ⟨?_, ?_, ?_⟩
  · intro t finished finishedAfter explainOk h1 h2 h3 h4 h5 h6
    unfold dispatchMessage
    rw [if_neg h1, if_neg h2]
    simp only []
    rw [if_neg h3, if_neg h4, if_neg h5, if_neg h6]
  · intro t finishedAfter explainOk h1 h2
    unfold dispatchMessage
    rw [if_neg h1, if_neg h2]
  · intro finishedAfter explainOk t h
    rcases h with rfl | rfl | rfl | rfl
    · rfl
    · rfl
    · rfl
    · rfl

theorem c4_error_dispatch_witness :
    (MSG_STEP_OVER = MSG_STEP_OVER ∨ MSG_STEP_OVER = MSG_STEP_INTO ∨
      MSG_STEP_OVER = MSG_STEP_OUT ∨ MSG_STEP_OVER = MSG_EXPLAIN_STEP) ∧
      dispatchMessage MSG_STEP_OVER (GwSession.live true) false false =
        { sent := [MsgType.errorMsg], stepped := false, raised := false } :=
  ⟨Or.inl rfl, c4_error_dispatch.2.2 false false MSG_STEP_OVER (Or.inl rfl)⟩
